import Mathlib

/-!
Verification of the mac-compare snapshot tool (src/workers.py, src/ui.py).

The Python source is shallowly embedded: each relevant function becomes an
executable Lean definition over explicit data (association lists model Python
dicts, which preserve insertion order and have unique keys; `Option` models a
`None`-or-value result and an uncaught exception is modelled as `none` where
noted).  Strings handled character-by-character by the source's regexes are
modelled as `List Char`.
-/

namespace MacCompare

/-! ## Interface-name normalization (`CreateEvent.normalize_iface`, workers.py 134-149) -/

/-- Characters Python's `\s` class matches for ASCII input: space, tab,
newline, carriage return, vertical tab, form feed.  The source's `\S` in the
port-identifier regex (workers.py 147) is the complement of this set. -/
def isPySpace (c : Char) : Bool :=
  c == ' ' || c == '\t' || c == '\n' || c == '\r' || c == '\x0b' || c == '\x0c'

/-- Case-insensitive "starts with" over character lists, modelling
`re.search(f'^{label}', iface, re.IGNORECASE)` (workers.py 146): the second
argument is the label that must appear at the head of the first argument. -/
def lcStartsWith : List Char → List Char → Bool
  | _, [] => true
  | [], _ :: _ => false
  | c :: s, d :: t => (c.toLower == d.toLower) && lcStartsWith s t

/-- The recognized interface labels, in the order the source iterates them
(workers.py 144). -/
def labels : List (List Char) :=
  [['T', 'e'], ['G', 'i'], ['F', 'a'], ['E', 't', 'h'], ['L', 'o'], ['V', 'l'],
   ['T', 'w', 'o'], ['T', 'w', 'e']]

/-- Models `re.search(r'(\d+\S*)', iface)` (workers.py 147): the match starts
at the first decimal digit of the name and extends over every following
non-whitespace character; `none` when the name holds no digit, in which case
the source dereferences `.group(0)` on `None` and raises `AttributeError`. -/
def portId (cs : List Char) : Option (List Char) :=
  match cs.dropWhile (fun c => !c.isDigit) with
  | [] => none
  | c :: rest => some ((c :: rest).takeWhile (fun a => !isPySpace a))

/-- `CreateEvent.normalize_iface` (workers.py 134-149).  The first label that
is a case-insensitive head of the name wins and the canonical spelling is that
label followed by the port identifier; a name matching no label passes through
unchanged.  The `none` result models the uncaught `AttributeError` raised when
a label matches but the name holds no digit. -/
def normalize_iface (iface : List Char) : Option (List Char) :=
  match labels.find? (fun l => lcStartsWith iface l) with
  | some l => (portId iface).map (fun p => l ++ p)
  | none => some iface

/-! ### Helper lemmas about the normalizer -/

lemma lcStartsWith_append_self (l t : List Char) : lcStartsWith (l ++ t) l = true := by
  induction l with
  | nil => cases t <;> rfl
  | cons c s ih => simp [lcStartsWith, ih]

/-- Whether comparing the second list against the first, case-insensitively,
hits a mismatching character before the first list runs out.  When true, no
extension of the first list can start with the second. -/
def mismatchWithin : List Char → List Char → Bool
  | _, [] => false
  | [], _ :: _ => false
  | c :: s, d :: t => if c.toLower == d.toLower then mismatchWithin s t else true

lemma lcStartsWith_append_eq_false (l a : List Char) (h : mismatchWithin l a = true) :
    ∀ s, lcStartsWith (l ++ s) a = false := by
  induction l generalizing a with
  | nil => cases a with
    | nil => simp [mismatchWithin] at h
    | cons d t => simp [mismatchWithin] at h
  | cons c s ih =>
    cases a with
    | nil => simp [mismatchWithin] at h
    | cons d t =>
      intro u
      rw [List.cons_append]
      by_cases hc : (c.toLower == d.toLower) = true
      · rw [mismatchWithin, if_pos hc] at h
        simp [lcStartsWith, hc, ih t h u]
      · simp [lcStartsWith, Bool.eq_false_iff.mpr hc]

lemma labels_pairwise_mismatch :
    ∀ l ∈ labels, ∀ a ∈ labels, a ≠ l → mismatchWithin l a = true := by decide

lemma labels_no_digit : ∀ l ∈ labels, ∀ a ∈ l, a.isDigit = false := by decide

lemma find?_first_self (L : List (List Char)) (l s : List Char) (hmem : l ∈ L)
    (hmis : ∀ a ∈ L, a ≠ l → mismatchWithin l a = true) :
    L.find? (fun lab => lcStartsWith (l ++ s) lab) = some l := by
  induction L with
  | nil => cases hmem
  | cons a L ih =>
    by_cases hal : a = l
    · subst hal
      simp [List.find?, lcStartsWith_append_self]
    · have hf : lcStartsWith (l ++ s) a = false :=
        lcStartsWith_append_eq_false l a (hmis a (List.mem_cons_self a L) hal) s
      rw [List.find?, hf]
      exact ih (by rcases List.mem_cons.1 hmem with h | h; exact absurd h.symm hal; exact h)
        (fun b hb => hmis b (List.mem_cons_of_mem a hb))

lemma takeWhile_eq_self_of_all {α : Type} {q : α → Bool} :
    ∀ {l : List α}, (∀ a ∈ l, q a = true) → l.takeWhile q = l := by
  intro l
  induction l with
  | nil => intro _; rfl
  | cons a l ih =>
    intro h
    rw [List.takeWhile_cons, if_pos (h a (List.mem_cons_self a l)),
      ih (fun b hb => h b (List.mem_cons_of_mem a hb))]

lemma dropWhile_append_of_all {α : Type} {q : α → Bool} :
    ∀ {l m : List α}, (∀ a ∈ l, q a = true) → (l ++ m).dropWhile q = m.dropWhile q := by
  intro l m
  induction l with
  | nil => intro _; rfl
  | cons a l ih =>
    intro h
    rw [List.cons_append, List.dropWhile_cons, if_pos (h a (List.mem_cons_self a l))]
    exact ih (fun b hb => h b (List.mem_cons_of_mem a hb))

lemma dropWhile_head_false {α : Type} {q : α → Bool} :
    ∀ {l : List α} {c : α} {rest : List α}, l.dropWhile q = c :: rest → q c = false := by
  intro l
  induction l with
  | nil => intro c rest h; simp at h
  | cons a l ih =>
    intro c rest h
    rw [List.dropWhile_cons] at h
    cases hq : q a with
    | true => rw [hq] at h; simp at h; exact ih h
    | false => rw [hq] at h; simp at h; obtain ⟨rfl, rfl⟩ := h; exact hq

lemma digit_not_pyspace (c : Char) (h : c.isDigit = true) : isPySpace c = false := by
  cases hps : isPySpace c
  · rfl
  · unfold isPySpace at hps
    simp only [Bool.or_eq_true, beq_iff_eq] at hps
    rcases hps with ((((h1 | h1) | h1) | h1) | h1) | h1 <;> subst h1 <;>
      exact absurd h (by decide)

lemma portId_shape {x p : List Char} (h : portId x = some p) :
    ∃ c p', p = c :: p' ∧ c.isDigit = true ∧ ∀ a ∈ p, isPySpace a = false := by
  unfold portId at h
  cases hd : x.dropWhile (fun c => !c.isDigit) with
  | nil => rw [hd] at h; exact absurd h (by simp)
  | cons c rest =>
    rw [hd] at h
    have hc : c.isDigit = true := by
      have := dropWhile_head_false hd
      simpa using this
    have hcs : isPySpace c = false := digit_not_pyspace c hc
    injection h with h
    rw [List.takeWhile_cons, if_pos (by simp [hcs])] at h
    refine ⟨c, rest.takeWhile (fun a => !isPySpace a), h.symm, hc, ?_⟩
    intro a ha
    rw [← h] at ha
    rcases List.mem_cons.1 ha with rfl | ha
    · exact hcs
    · have := List.mem_takeWhile_imp ha
      simpa using this

/-- A canonical output of the normalizer (a label followed by a port identifier
that starts with a digit and holds no whitespace) is a fixed point. -/
lemma normalize_canonical (l : List Char) (c : Char) (p : List Char)
    (hl : l ∈ labels) (hc : c.isDigit = true)
    (hp : ∀ a ∈ c :: p, isPySpace a = false) :
    normalize_iface (l ++ c :: p) = some (l ++ c :: p) := by
  have hfind := find?_first_self labels l (c :: p) hl
    (fun a ha hne => labels_pairwise_mismatch l hl a ha hne)
  have hnd : ∀ a ∈ l, (fun b : Char => !b.isDigit) a = true := by
    intro a ha; simp [labels_no_digit l hl a ha]
  have hdrop : (l ++ c :: p).dropWhile (fun b => !b.isDigit) = c :: p := by
    rw [dropWhile_append_of_all hnd, List.dropWhile_cons, if_neg (by simp [hc])]
  have htake : (c :: p).takeWhile (fun a => !isPySpace a) = c :: p :=
    takeWhile_eq_self_of_all (fun a ha => by simp [hp a ha])
  simp [normalize_iface, hfind, portId, hdrop, htake]

/-- C6: interface-name normalization is idempotent — for every name already in
canonical form, that is an output of `normalize_iface`, applying
`normalize_iface` again returns the same string unchanged. -/
theorem C6_normalize_idempotent (x y : List Char) (h : normalize_iface x = some y) :
    normalize_iface y = some y := by
  unfold normalize_iface at h
  cases hf : labels.find? (fun l => lcStartsWith x l) with
  | none =>
    rw [hf] at h
    simp only [Option.some.injEq] at h
    subst h
    simp [normalize_iface, hf]
  | some l =>
    rw [hf] at h
    simp only at h
    rcases Option.map_eq_some'.1 h with ⟨p, hp, rfl⟩
    obtain ⟨c, p', rfl, hc, hsp⟩ := portId_shape hp
    exact normalize_canonical l c p' (List.mem_of_find?_eq_some hf) hc hsp

theorem C6_witness : normalize_iface "Gi1/0/1".toList = some "Gi1/0/1".toList :=
  C6_normalize_idempotent "gi1/0/1".toList "Gi1/0/1".toList (by decide)

/-- C7: `normalize_iface` maps names beginning case-insensitively with a
recognized label to the label followed by the digit-onward port identifier, so
different spellings of one port normalize identically, and any name matching
no label passes through unchanged. -/
theorem C7_normalize_canonical_spellings :
    (normalize_iface "gi1/0/1".toList = some "Gi1/0/1".toList ∧
      normalize_iface "GigabitEthernet1/0/1".toList = some "Gi1/0/1".toList ∧
      normalize_iface "TenGigabitEthernet1/1/1".toList = some "Te1/1/1".toList ∧
      normalize_iface "te1/1/1".toList = some "Te1/1/1".toList) ∧
    (∀ s : List Char, (∀ l ∈ labels, lcStartsWith s l = false) → normalize_iface s = some s) ∧
    (∀ s l p, labels.find? (fun lab => lcStartsWith s lab) = some l → portId s = some p →
      normalize_iface s = some (l ++ p)) := by
  refine ⟨⟨by decide, by decide, by decide, by decide⟩, ?_, ?_⟩
  · intro s hs
    have hnone : labels.find? (fun l => lcStartsWith s l) = none :=
      List.find?_eq_none.mpr (fun a ha => by simp [hs a ha])
    simp [normalize_iface, hnone]
  · intro s l p h1 h2
    simp [normalize_iface, h1, h2]

theorem C7_witness : normalize_iface "mgmt0".toList = some "mgmt0".toList :=
  C7_normalize_canonical_spellings.2.1 "mgmt0".toList (by decide)

/-- C9: the normalizer is partial — on a name with a recognized label but no
digit (such as the bare "Ethernet") the port-identifier search fails and the
source raises, modelled by `none`; totality holds under the precondition that
every label-matching input contains a digit. -/
theorem C9_normalize_requires_digit :
    normalize_iface "Ethernet".toList = none ∧
    ∀ s : List Char,
      ((labels.find? (fun l => lcStartsWith s l)).isSome → ∃ c ∈ s, c.isDigit = true) →
      (normalize_iface s).isSome := by
  refine ⟨by decide, ?_⟩
  intro s hs
  unfold normalize_iface
  cases hf : labels.find? (fun l => lcStartsWith s l) with
  | none => simp
  | some l =>
    obtain ⟨c, hcs, hc⟩ := hs (by rw [hf]; rfl)
    cases hd : s.dropWhile (fun b => !b.isDigit) with
    | nil =>
      have := (List.dropWhile_eq_nil_iff.1 hd) c hcs
      simp [hc] at this
    | cons a rest => simp [portId, hd]

theorem C9_witness : (normalize_iface "Gi7".toList).isSome :=
  C9_normalize_requires_digit.2 "Gi7".toList (fun _ => ⟨'7', by decide, by decide⟩)

/-! ## Per-device observations and consolidation (`CreateEvent`, workers.py 68-183) -/

/-- One per-device endpoint row, the value stored in `endpoint_data[mac]` by
`CreateEvent.create_task` (workers.py 115-125). -/
structure Observation where
  hostname : String
  ipAddress : String
  switch : String
  iface : String
  speed : String
  duplex : String
  macAddress : String
  vendor : String
  vlan : String
deriving DecidableEq

/-- A consolidated endpoint, the value stored in `refactored[idx]` by
`CreateEvent.refactor_data` (workers.py 171-181): scalar identity attributes
plus the four parallel per-switch sequences. -/
structure Endpoint where
  macAddress : String
  vendor : String
  hostname : String
  ipAddress : String
  vlan : String
  switches : List String
  interfaces : List String
  speeds : List String
  duplexes : List String
deriving DecidableEq

/-- Association-list lookup by key; models a Python dict lookup (`d.get(k)`).
Keys in a dict are unique, so the first match is the only one. -/
def alookup {α : Type} (k : String) : List (String × α) → Option α
  | [] => none
  | p :: rest => if p.1 = k then some p.2 else alookup k rest

/-- First sighting of a MAC (workers.py 168-181): the scalar attributes are
copied from this observation and the four parallel sequences start as
single-element lists. -/
def newEndpoint (o : Observation) : Endpoint :=
  { macAddress := o.macAddress, vendor := o.vendor, hostname := o.hostname,
    ipAddress := o.ipAddress, vlan := o.vlan, switches := [o.switch],
    interfaces := [o.iface], speeds := [o.speed], duplexes := [o.duplex] }

/-- Later sighting of a MAC (workers.py 162-167): one element is appended to
each of the four parallel sequences and the scalar attributes are untouched. -/
def updateEndpoint (o : Observation) (e : Endpoint) : Endpoint :=
  { e with
    switches := e.switches ++ [o.switch],
    interfaces := e.interfaces ++ [o.iface],
    speeds := e.speeds ++ [o.speed],
    duplexes := e.duplexes ++ [o.duplex] }

/-- Processing of one `(mac, prop)` pair of the `refactor_data` loop: if the
MAC is already indexed (`mac in mac_to_index`) its record is extended,
otherwise a fresh record is appended.  The `refactored`/`mac_to_index` pair of
dicts is modelled as one association list keyed by MAC in first-sight order,
which is exactly the iteration order of `refactored` (`ep_idx` increases by
one at each first sight). -/
def insertObs (mac : String) (o : Observation) :
    List (String × Endpoint) → List (String × Endpoint)
  | [] => [(mac, newEndpoint o)]
  | p :: rest =>
    if p.1 = mac then (p.1, updateEndpoint o p.2) :: rest else p :: insertObs mac o rest

/-- `CreateEvent.refactor_data` (workers.py 151-183): the devices are walked
sequentially in original device-list order and, inside each, the device's
endpoint rows in their insertion order — `devices.flatMap data` is that nested
loop flattened. -/
def refactor_data (devices : List String) (data : String → List (String × Observation)) :
    List (String × Endpoint) :=
  (devices.flatMap data).foldl (fun acc p => insertObs p.1 p.2 acc) []

/-- The observations recorded under one MAC key, in order. -/
def obsOf (mac : String) : List (String × Observation) → List Observation
  | [] => []
  | p :: rest => if p.1 = mac then p.2 :: obsOf mac rest else obsOf mac rest

/-- Extending an endpoint with a sequence of later sightings. -/
def extendAll (os : List Observation) (e : Endpoint) : Endpoint :=
  os.foldl (fun e o => updateEndpoint o e) e

/-! ### Helper lemmas about consolidation -/

lemma alookup_insertObs_self (mac : String) (o : Observation) :
    ∀ acc : List (String × Endpoint),
      alookup mac (insertObs mac o acc) =
        some (match alookup mac acc with
              | some e => updateEndpoint o e
              | none => newEndpoint o) := by
  intro acc
  induction acc with
  | nil => simp [insertObs, alookup]
  | cons p rest ih =>
    by_cases hp : p.1 = mac
    · simp [insertObs, alookup, hp]
    · simp [insertObs, alookup, hp, ih]

lemma alookup_insertObs_ne (k mac : String) (o : Observation) (h : k ≠ mac) :
    ∀ acc : List (String × Endpoint),
      alookup mac (insertObs k o acc) = alookup mac acc := by
  intro acc
  induction acc with
  | nil => simp [insertObs, alookup, h]
  | cons p rest ih =>
    by_cases hp : p.1 = k
    · rw [insertObs, if_pos hp]
      have : ¬ p.1 = mac := by rw [hp]; exact h
      simp [alookup, this]
    · rw [insertObs, if_neg hp]
      by_cases hm : p.1 = mac
      · simp [alookup, hm]
      · simp [alookup, hm, ih]

lemma refactor_foldl_lookup (l : List (String × Observation)) :
    ∀ (acc : List (String × Endpoint)) (mac : String),
      alookup mac (l.foldl (fun acc p => insertObs p.1 p.2 acc) acc) =
        match alookup mac acc, obsOf mac l with
        | some e, os => some (extendAll os e)
        | none, [] => none
        | none, o :: os => some (extendAll os (newEndpoint o)) := by
  induction l with
  | nil =>
    intro acc mac
    cases halk : alookup mac acc <;> simp [obsOf, extendAll, halk]
  | cons p l ih =>
    intro acc mac
    rw [List.foldl_cons, ih (insertObs p.1 p.2 acc) mac]
    by_cases hp : p.1 = mac
    · subst hp
      rw [alookup_insertObs_self p.1 p.2 acc]
      cases halk : alookup p.1 acc <;> simp [obsOf, extendAll]
    · rw [alookup_insertObs_ne p.1 mac p.2 hp acc, obsOf, if_neg hp]

lemma extendAll_spec : ∀ (os : List Observation) (e : Endpoint),
    extendAll os e =
      { macAddress := e.macAddress, vendor := e.vendor, hostname := e.hostname,
        ipAddress := e.ipAddress, vlan := e.vlan,
        switches := e.switches ++ os.map (fun o => o.switch),
        interfaces := e.interfaces ++ os.map (fun o => o.iface),
        speeds := e.speeds ++ os.map (fun o => o.speed),
        duplexes := e.duplexes ++ os.map (fun o => o.duplex) } := by
  intro os
  induction os with
  | nil => intro e; simp [extendAll]
  | cons o os ih =>
    intro e
    have h1 : extendAll (o :: os) e = extendAll os (updateEndpoint o e) := by
      simp [extendAll]
    rw [h1, ih (updateEndpoint o e)]
    simp [updateEndpoint, List.append_assoc]

lemma refactor_lookup (devices : List String) (data : String → List (String × Observation))
    (mac : String) :
    alookup mac (refactor_data devices data) =
      match obsOf mac (devices.flatMap data) with
      | [] => none
      | o :: os => some (extendAll os (newEndpoint o)) := by
  rw [refactor_data, refactor_foldl_lookup (devices.flatMap data) [] mac]
  have hnil : alookup mac ([] : List (String × Endpoint)) = none := rfl
  rw [hnil]
  cases obsOf mac (devices.flatMap data) <;> rfl

lemma obsOf_append (mac : String) (l₁ l₂ : List (String × Observation)) :
    obsOf mac (l₁ ++ l₂) = obsOf mac l₁ ++ obsOf mac l₂ := by
  induction l₁ with
  | nil => rfl
  | cons p l ih =>
    by_cases hp : p.1 = mac <;> simp [obsOf, hp, ih]

lemma obsOf_flatMap (mac : String) (devices : List String)
    (data : String → List (String × Observation)) :
    obsOf mac (devices.flatMap data) = devices.flatMap (fun d => obsOf mac (data d)) := by
  induction devices with
  | nil => rfl
  | cons d devices ih => simp [List.flatMap_cons, obsOf_append, ih]

lemma alookup_eq_none_iff {α : Type} (k : String) :
    ∀ l : List (String × α), alookup k l = none ↔ ¬ k ∈ l.map Prod.fst := by
  intro l
  induction l with
  | nil => simp [alookup]
  | cons p rest ih =>
    by_cases hp : p.1 = k
    · simp [alookup, hp]
    · rw [alookup, if_neg hp, List.map_cons, ih]
      simp only [List.mem_cons, not_or]
      constructor
      · intro hn
        exact ⟨fun h => hp h.symm, hn⟩
      · intro hn
        exact hn.2

lemma obsOf_eq_toList (mac : String) :
    ∀ l : List (String × Observation), (l.map Prod.fst).Nodup →
      obsOf mac l = (alookup mac l).toList := by
  intro l
  induction l with
  | nil => intro _; rfl
  | cons p rest ih =>
    intro h
    rw [List.map_cons, List.nodup_cons] at h
    by_cases hp : p.1 = mac
    · have hrest : alookup mac rest = none := by
        rw [alookup_eq_none_iff, ← hp]
        exact h.1
      have hnil : obsOf mac rest = [] := by
        rw [ih h.2, hrest]; rfl
      simp [obsOf, alookup, hp, hnil]
    · simp [obsOf, alookup, hp, ih h.2]

lemma flatMap_toList_eq_filterMap {α β : Type} (g : α → Option β) :
    ∀ l : List α, l.flatMap (fun a => (g a).toList) = l.filterMap g := by
  intro l
  induction l with
  | nil => rfl
  | cons a l ih =>
    cases hg : g a <;> simp [List.flatMap_cons, hg, ih]

lemma length_filterMap_eq_length_filter {α β : Type} (g : α → Option β) :
    ∀ l : List α, (l.filterMap g).length = (l.filter (fun a => (g a).isSome)).length := by
  intro l
  induction l with
  | nil => rfl
  | cons a l ih =>
    cases hg : g a <;> simp [List.filterMap_cons, hg, ih]

/-- The consolidated record of one MAC, spelt through the flat observation
sequence of that MAC taken across the devices in device-list order. -/
lemma refactor_record (devices : List String) (data : String → List (String × Observation))
    (hkeys : ∀ d, ((data d).map Prod.fst).Nodup) (mac : String) (r : Endpoint)
    (h : alookup mac (refactor_data devices data) = some r) :
    ∃ o os, devices.filterMap (fun d => alookup mac (data d)) = o :: os ∧
      r = extendAll os (newEndpoint o) := by
  rw [refactor_lookup devices data mac, obsOf_flatMap] at h
  have hflat : devices.flatMap (fun d => obsOf mac (data d)) =
      devices.filterMap (fun d => alookup mac (data d)) := by
    rw [← flatMap_toList_eq_filterMap (fun d => alookup mac (data d)) devices]
    exact List.flatMap_congr (fun d _ => obsOf_eq_toList mac (data d) (hkeys d))
  rw [hflat] at h
  cases hc : devices.filterMap (fun d => alookup mac (data d)) with
  | nil => rw [hc] at h; simp at h
  | cons o os =>
    rw [hc] at h
    simp only [Option.some.injEq] at h
    exact ⟨o, os, rfl, h.symm⟩

/-- C1: for a MAC reported by several devices the four parallel sequences of
its consolidated endpoint all have length equal to the number of reporting
devices, and entry `i` of each sequence is the observation of the `i`-th
reporting device in original device-list order. -/
theorem C1_parallel_sequences (devices : List String)
    (data : String → List (String × Observation))
    (_hdev : devices.Nodup) (hkeys : ∀ d, ((data d).map Prod.fst).Nodup)
    (mac : String) (r : Endpoint)
    (h : alookup mac (refactor_data devices data) = some r) :
    r.switches = (devices.filterMap (fun d => alookup mac (data d))).map (fun o => o.switch) ∧
    r.interfaces = (devices.filterMap (fun d => alookup mac (data d))).map (fun o => o.iface) ∧
    r.speeds = (devices.filterMap (fun d => alookup mac (data d))).map (fun o => o.speed) ∧
    r.duplexes = (devices.filterMap (fun d => alookup mac (data d))).map (fun o => o.duplex) ∧
    (devices.filterMap (fun d => alookup mac (data d))).length =
      (devices.filter (fun d => (alookup mac (data d)).isSome)).length := by
  obtain ⟨o, os, hc, rfl⟩ := refactor_record devices data hkeys mac r h
  rw [hc, extendAll_spec]
  simp [newEndpoint, ← length_filterMap_eq_length_filter, hc]

/-- C10: when several devices report one MAC, the scalar attributes of the
consolidated endpoint come exclusively from the first reporting device in
device-list order; later devices only extend the four parallel sequences. -/
theorem C10_scalars_from_first (devices : List String)
    (data : String → List (String × Observation))
    (hkeys : ∀ d, ((data d).map Prod.fst).Nodup)
    (mac : String) (r : Endpoint)
    (h : alookup mac (refactor_data devices data) = some r) :
    ∃ o, (devices.filterMap (fun d => alookup mac (data d))).head? = some o ∧
      r.macAddress = o.macAddress ∧ r.vendor = o.vendor ∧ r.hostname = o.hostname ∧
      r.ipAddress = o.ipAddress ∧ r.vlan = o.vlan := by
  obtain ⟨o, os, hc, rfl⟩ := refactor_record devices data hkeys mac r h
  rw [hc, extendAll_spec]
  exact ⟨o, rfl, rfl, rfl, rfl, rfl, rfl⟩

/-! ### Sample data for the consolidation witnesses -/

def sampleObs1 : Observation :=
  { hostname := "h1", ipAddress := "10.0.0.1", switch := "SW1", iface := "Gi1/0/1",
    speed := "1G", duplex := "full", macAddress := "aa:aa", vendor := "v1", vlan := "10" }

def sampleObs2 : Observation :=
  { hostname := "h2", ipAddress := "10.0.0.2", switch := "SW2", iface := "Te1/1",
    speed := "10G", duplex := "half", macAddress := "aa:aa", vendor := "v2", vlan := "20" }

def sampleDevices : List String := ["d1", "d2"]

def sampleData : String → List (String × Observation) := fun d =>
  if d = "d1" then [("aa:aa", sampleObs1)]
  else if d = "d2" then [("aa:aa", sampleObs2)]
  else []

def sampleRecord : Endpoint :=
  { macAddress := "aa:aa", vendor := "v1", hostname := "h1", ipAddress := "10.0.0.1",
    vlan := "10", switches := ["SW1", "SW2"], interfaces := ["Gi1/0/1", "Te1/1"],
    speeds := ["1G", "10G"], duplexes := ["full", "half"] }

lemma sampleData_keys_nodup : ∀ d, ((sampleData d).map Prod.fst).Nodup := by
  intro d
  unfold sampleData
  split
  · decide
  · split
    · decide
    · decide

theorem C1_witness :
    sampleRecord.switches =
      (sampleDevices.filterMap (fun d => alookup "aa:aa" (sampleData d))).map
        (fun o => o.switch) ∧
    sampleRecord.interfaces =
      (sampleDevices.filterMap (fun d => alookup "aa:aa" (sampleData d))).map
        (fun o => o.iface) ∧
    sampleRecord.speeds =
      (sampleDevices.filterMap (fun d => alookup "aa:aa" (sampleData d))).map
        (fun o => o.speed) ∧
    sampleRecord.duplexes =
      (sampleDevices.filterMap (fun d => alookup "aa:aa" (sampleData d))).map
        (fun o => o.duplex) ∧
    (sampleDevices.filterMap (fun d => alookup "aa:aa" (sampleData d))).length =
      (sampleDevices.filter (fun d => (alookup "aa:aa" (sampleData d)).isSome)).length :=
  C1_parallel_sequences sampleDevices sampleData (by decide) sampleData_keys_nodup
    "aa:aa" sampleRecord (by decide)

theorem C10_witness :
    ∃ o, (sampleDevices.filterMap (fun d => alookup "aa:aa" (sampleData d))).head? = some o ∧
      sampleRecord.macAddress = o.macAddress ∧ sampleRecord.vendor = o.vendor ∧
      sampleRecord.hostname = o.hostname ∧ sampleRecord.ipAddress = o.ipAddress ∧
      sampleRecord.vlan = o.vlan :=
  C10_scalars_from_first sampleDevices sampleData sampleData_keys_nodup
    "aa:aa" sampleRecord (by decide)

/-! ## Collection pipeline and failure isolation (workers.py 33-95, 151-183) -/

/-- Outcome of the concurrent collection phase (`thread_executor` plus
`create_task`, workers.py 53-132): each device either contributes its endpoint
rows, or contributes nothing when session establishment raised and the
exception was caught and logged (workers.py 84-95) — `data['endpoints']` is
then left without that device's key.  The executor joins every future before
consolidation starts, so the per-device results are independent of completion
order and a fault in one future is only logged (workers.py 63-66). -/
def collect_all (devices : List String)
    (collect : String → Option (List (String × Observation))) :
    List (String × List (String × Observation)) :=
  devices.filterMap (fun d => (collect d).map (fun t => (d, t)))

/-- The `self.data['endpoints'].get(device, {})` read in `refactor_data`
(workers.py 161): a device without a key contributes the empty row list. -/
def deviceEndpoints (dataE : List (String × List (String × Observation))) (d : String) :
    List (String × Observation) :=
  (alookup d dataE).getD []

/-- The collection-plus-consolidation pipeline of `CreateEvent.run`
(workers.py 45-49), producing the endpoint map that `save_snapshot`
serializes. -/
def build_snapshot (devices : List String)
    (collect : String → Option (List (String × Observation))) :
    List (String × Endpoint) :=
  refactor_data devices (deviceEndpoints (collect_all devices collect))

lemma alookup_collect_all_none (devices : List String)
    (collect : String → Option (List (String × Observation))) (d : String)
    (hf : collect d = none) :
    alookup d (collect_all devices collect) = none := by
  induction devices with
  | nil => rfl
  | cons a devices ih =>
    cases hc : collect a with
    | none => simpa [collect_all, List.filterMap_cons, hc] using ih
    | some t =>
      have had : ¬ a = d := by
        intro h
        rw [h, hf] at hc
        cases hc
      simpa [collect_all, List.filterMap_cons, hc, alookup, had] using ih

lemma flatMap_filter_ne {β : Type} (devices : List String) (f : String → List β) (d : String)
    (hd : f d = []) :
    devices.flatMap f = (devices.filter (fun x => x ≠ d)).flatMap f := by
  induction devices with
  | nil => rfl
  | cons a devices ih =>
    by_cases ha : a = d
    · subst ha
      simp [List.flatMap_cons, hd, List.filter_cons, ih]
    · simp [List.flatMap_cons, List.filter_cons, ha, ih]

lemma alookup_collect_all_filter (devices : List String)
    (collect : String → Option (List (String × Observation))) (d x : String) (hx : x ≠ d) :
    alookup x (collect_all (devices.filter (fun y => y ≠ d)) collect) =
      alookup x (collect_all devices collect) := by
  induction devices with
  | nil => rfl
  | cons a devices ih =>
    rw [collect_all, collect_all] at ih ⊢
    simp only [ne_eq, decide_not] at ih ⊢
    rw [List.filter_cons]
    by_cases ha : a = d
    · rw [if_neg (by simp [ha])]
      rw [ih, List.filterMap_cons]
      cases hc : collect a with
      | none => simp [hc]
      | some t =>
        have hax : ¬ a = x := fun h => hx (ha ▸ h.symm)
        simp [hc, alookup, hax]
    · rw [if_pos (by simp [ha])]
      rw [List.filterMap_cons, List.filterMap_cons]
      cases hc : collect a with
      | none => simp [hc, ih]
      | some t => simp [hc, alookup, ih]

/-- C5: a failed session to one device is absorbed — that device contributes
no endpoint observations — and the snapshot built is exactly the snapshot
built without the failed device: collection and consolidation for every other
device proceed unaffected and the snapshot is still produced. -/
theorem C5_failure_isolated (devices : List String)
    (collect : String → Option (List (String × Observation))) (d : String)
    (hf : collect d = none) :
    deviceEndpoints (collect_all devices collect) d = [] ∧
    build_snapshot devices collect =
      build_snapshot (devices.filter (fun x => x ≠ d)) collect := by
  have h1 : deviceEndpoints (collect_all devices collect) d = [] := by
    rw [deviceEndpoints, alookup_collect_all_none devices collect d hf]
    rfl
  refine ⟨h1, ?_⟩
  rw [build_snapshot, build_snapshot, refactor_data, refactor_data]
  congr 1
  rw [flatMap_filter_ne devices (deviceEndpoints (collect_all devices collect)) d h1]
  refine List.flatMap_congr ?_
  intro x hx
  have hxd : x ≠ d := by
    rcases List.mem_filter.1 hx with ⟨_, hdec⟩
    simpa using hdec
  rw [deviceEndpoints, deviceEndpoints,
    alookup_collect_all_filter devices collect d x hxd]

def sampleCollect : String → Option (List (String × Observation)) :=
  fun d => if d = "d1" then some [("aa:aa", sampleObs1)] else none

theorem C5_witness :
    deviceEndpoints (collect_all sampleDevices sampleCollect) "d2" = [] ∧
    build_snapshot sampleDevices sampleCollect =
      build_snapshot (sampleDevices.filter (fun x => x ≠ "d2")) sampleCollect :=
  C5_failure_isolated sampleDevices sampleCollect "d2" (by decide)

/-! ## Snapshot comparison (`CompareEvent`, workers.py 239-404) -/

/-- A cell style from the `cell_format` table (workers.py 312-317). -/
structure CellFmt where
  bgColor : Option String
  fontColor : String
deriving DecidableEq

def ftNormal : CellFmt := { bgColor := none, fontColor := "#000000" }

def ftBad : CellFmt := { bgColor := some "#FFC7CE", fontColor := "#9C0006" }

def ftGood : CellFmt := { bgColor := some "#C6EFCE", fontColor := "#006100" }

def ftInfo : CellFmt := { bgColor := some "#FFEB9C", fontColor := "#9C6500" }

/-- A cell value: after consolidation the Switch/Interface/Speed/Duplex
attributes are lists while the rest are strings, and Python compares a list
and a string as unequal — the two constructors keep that distinction. -/
inductive Val where
  | s : String → Val
  | l : List String → Val
deriving DecidableEq

/-- One `{'value': ..., 'cellFormat': ...}` cell of `compare_data`. -/
structure Cell where
  value : Val
  cellFormat : CellFmt
deriving DecidableEq

/-- One row of `compare_data` (workers.py 330-348), in column order. -/
structure CompareRecord where
  address : Cell
  observation : Cell
  vendor : Cell
  preDevice : Cell
  preInterface : Cell
  preSpeed : Cell
  preDuplex : Cell
  preVlan : Cell
  preIP : Cell
  preHostname : Cell
  postDevice : Cell
  postInterface : Cell
  postSpeed : Cell
  postDuplex : Cell
  postVlan : Cell
  postIP : Cell
  postHostname : Cell
deriving DecidableEq

/-- `CompareEvent.match_attribute` (workers.py 392-404): the Post value is
shown, styled `ftNormal` when it equals the Pre value and `ftBad` otherwise. -/
def match_attribute (pre post : Val) : Cell :=
  { value := post, cellFormat := if pre = post then ftNormal else ftBad }

/-- The row built for a MAC present in the Pre snapshot (workers.py 321-359):
the base row marks the MAC `MAC Not Learnt` with `???` placeholders on the
Post side, and when the MAC is also in Post the row is overwritten to
`MAC Learnt`, the Post switch/interface are shown unconditionally with
`ftNormal`, and the five remaining Post attributes go through
`match_attribute`. -/
def preRecord (mac : String) (pre : Endpoint) (postOpt : Option Endpoint) : CompareRecord :=
  match postOpt with
  | none =>
    { address := ⟨Val.s mac, ftNormal⟩,
      observation := ⟨Val.s "MAC Not Learnt", ftBad⟩,
      vendor := ⟨Val.s pre.vendor, ftNormal⟩,
      preDevice := ⟨Val.l pre.switches, ftNormal⟩,
      preInterface := ⟨Val.l pre.interfaces, ftNormal⟩,
      preSpeed := ⟨Val.l pre.speeds, ftNormal⟩,
      preDuplex := ⟨Val.l pre.duplexes, ftNormal⟩,
      preVlan := ⟨Val.s pre.vlan, ftNormal⟩,
      preIP := ⟨Val.s pre.ipAddress, ftNormal⟩,
      preHostname := ⟨Val.s pre.hostname, ftNormal⟩,
      postDevice := ⟨Val.s "???", ftBad⟩,
      postInterface := ⟨Val.s "???", ftBad⟩,
      postSpeed := ⟨Val.s "???", ftBad⟩,
      postDuplex := ⟨Val.s "???", ftBad⟩,
      postVlan := ⟨Val.s "???", ftBad⟩,
      postIP := ⟨Val.s "???", ftBad⟩,
      postHostname := ⟨Val.s "???", ftBad⟩ }
  | some post =>
    { address := ⟨Val.s mac, ftNormal⟩,
      observation := ⟨Val.s "MAC Learnt", ftGood⟩,
      vendor := ⟨Val.s pre.vendor, ftNormal⟩,
      preDevice := ⟨Val.l pre.switches, ftNormal⟩,
      preInterface := ⟨Val.l pre.interfaces, ftNormal⟩,
      preSpeed := ⟨Val.l pre.speeds, ftNormal⟩,
      preDuplex := ⟨Val.l pre.duplexes, ftNormal⟩,
      preVlan := ⟨Val.s pre.vlan, ftNormal⟩,
      preIP := ⟨Val.s pre.ipAddress, ftNormal⟩,
      preHostname := ⟨Val.s pre.hostname, ftNormal⟩,
      postDevice := ⟨Val.l post.switches, ftNormal⟩,
      postInterface := ⟨Val.l post.interfaces, ftNormal⟩,
      postSpeed := match_attribute (Val.l pre.speeds) (Val.l post.speeds),
      postDuplex := match_attribute (Val.l pre.duplexes) (Val.l post.duplexes),
      postVlan := match_attribute (Val.s pre.vlan) (Val.s post.vlan),
      postIP := match_attribute (Val.s pre.ipAddress) (Val.s post.ipAddress),
      postHostname := match_attribute (Val.s pre.hostname) (Val.s post.hostname) }

/-- The row built for a MAC present only in the Post snapshot
(workers.py 365-385): `New MAC` with `ftInfo`, `???` placeholders styled
`ftNormal` on the Pre side, and every Post attribute shown with `ftNormal`. -/
def newMacRecord (mac : String) (post : Endpoint) : CompareRecord :=
  { address := ⟨Val.s mac, ftNormal⟩,
    observation := ⟨Val.s "New MAC", ftInfo⟩,
    vendor := ⟨Val.s post.vendor, ftNormal⟩,
    preDevice := ⟨Val.s "???", ftNormal⟩,
    preInterface := ⟨Val.s "???", ftNormal⟩,
    preSpeed := ⟨Val.s "???", ftNormal⟩,
    preDuplex := ⟨Val.s "???", ftNormal⟩,
    preVlan := ⟨Val.s "???", ftNormal⟩,
    preIP := ⟨Val.s "???", ftNormal⟩,
    preHostname := ⟨Val.s "???", ftNormal⟩,
    postDevice := ⟨Val.l post.switches, ftNormal⟩,
    postInterface := ⟨Val.l post.interfaces, ftNormal⟩,
    postSpeed := ⟨Val.l post.speeds, ftNormal⟩,
    postDuplex := ⟨Val.l post.duplexes, ftNormal⟩,
    postVlan := ⟨Val.s post.vlan, ftNormal⟩,
    postIP := ⟨Val.s post.ipAddress, ftNormal⟩,
    postHostname := ⟨Val.s post.hostname, ftNormal⟩ }

/-- `CompareEvent.compare_snapshots` (workers.py 305-390): the first loop
walks the Pre snapshot in its encounter order and builds one row per Pre MAC;
the second loop appends one row per Post MAC absent from Pre, in Post's
encounter order.  `compare_data` is a dict keyed by MAC, modelled as the
association list in insertion order. -/
def compare_snapshots (preD postD : List (String × Endpoint)) :
    List (String × CompareRecord) :=
  preD.map (fun p => (p.1, preRecord p.1 p.2 (alookup p.1 postD))) ++
    (postD.filter (fun p => (alookup p.1 preD).isNone)).map
      (fun p => (p.1, newMacRecord p.1 p.2))

/-! ### Helper lemmas about comparison -/

lemma alookup_eq_some_mem {α : Type} (k : String) (v : α) :
    ∀ l : List (String × α), alookup k l = some v → k ∈ l.map Prod.fst := by
  intro l
  induction l with
  | nil => intro h; cases h
  | cons p rest ih =>
    intro h
    rw [alookup] at h
    by_cases hp : p.1 = k
    · simp [hp]
    · rw [if_neg hp] at h
      simp [ih h]

lemma alookup_isNone_eq {α : Type} (k : String) (l : List (String × α)) :
    (alookup k l).isNone = decide (¬ k ∈ l.map Prod.fst) := by
  cases h : alookup k l with
  | none =>
    have := (alookup_eq_none_iff k l).1 h
    simp [this]
  | some v =>
    have := alookup_eq_some_mem k v l h
    simp [this]

lemma alookup_append_left {α : Type} (k : String) (v : α) :
    ∀ l₁ l₂ : List (String × α), alookup k l₁ = some v → alookup k (l₁ ++ l₂) = some v := by
  intro l₁ l₂
  induction l₁ with
  | nil => intro h; cases h
  | cons p rest ih =>
    intro h
    rw [alookup] at h
    rw [List.cons_append, alookup]
    by_cases hp : p.1 = k
    · rwa [if_pos hp] at h ⊢
    · rw [if_neg hp] at h ⊢
      exact ih h

lemma alookup_map_preRecord (postD : List (String × Endpoint)) (mac : String)
    (epre : Endpoint) :
    ∀ preD : List (String × Endpoint), alookup mac preD = some epre →
      alookup mac (preD.map (fun p => (p.1, preRecord p.1 p.2 (alookup p.1 postD)))) =
        some (preRecord mac epre (alookup mac postD)) := by
  intro preD
  induction preD with
  | nil => intro h; cases h
  | cons p rest ih =>
    intro h
    rw [alookup] at h
    rw [List.map_cons, alookup]
    by_cases hp : p.1 = mac
    · rw [if_pos hp] at h ⊢
      subst hp
      simp only [Option.some.injEq] at h
      rw [h]
    · rw [if_neg hp] at h ⊢
      exact ih h

/-- C2: `compare_snapshots` yields exactly one row per MAC present in either
snapshot — Pre MACs first in Pre's encounter order, then Post-only MACs in
Post's encounter order, with no sorting — classified `MAC Learnt` when the MAC
is in both snapshots, `MAC Not Learnt` when only in Pre, `New MAC` when only
in Post. -/
theorem C2_classification_and_order (preD postD : List (String × Endpoint))
    (hpre : (preD.map Prod.fst).Nodup) (hpost : (postD.map Prod.fst).Nodup) :
    ((compare_snapshots preD postD).map Prod.fst =
      preD.map Prod.fst ++
        (postD.map Prod.fst).filter (fun m => decide (¬ m ∈ preD.map Prod.fst))) ∧
    ((compare_snapshots preD postD).map Prod.fst).Nodup ∧
    (∀ mac r, (mac, r) ∈ compare_snapshots preD postD →
      r.observation.value =
        Val.s (if mac ∈ preD.map Prod.fst then
                (if mac ∈ postD.map Prod.fst then "MAC Learnt" else "MAC Not Learnt")
              else "New MAC")) := by
  have hkeys : (compare_snapshots preD postD).map Prod.fst =
      preD.map Prod.fst ++
        (postD.map Prod.fst).filter (fun m => decide (¬ m ∈ preD.map Prod.fst)) := by
    rw [compare_snapshots, List.map_append, List.map_map, List.map_map]
    congr 1
    have hcomp : (Prod.fst ∘ fun p : String × Endpoint => (p.1, newMacRecord p.1 p.2)) =
        (Prod.fst : String × Endpoint → String) := funext (fun _ => rfl)
    rw [hcomp, List.filter_map]
    congr 1
    refine List.filter_congr ?_
    intro p _
    simp only [Function.comp_apply]
    exact alookup_isNone_eq p.1 preD
  refine ⟨hkeys, ?_, ?_⟩
  · rw [hkeys]
    refine List.Nodup.append hpre (List.Nodup.filter _ hpost) ?_
    intro m hm hmf
    rcases List.mem_filter.1 hmf with ⟨_, hdec⟩
    exact (of_decide_eq_true hdec) hm
  · intro mac r hmem
    rcases List.mem_append.1 hmem with hmem | hmem
    · rcases List.mem_map.1 hmem with ⟨p, hp, heq⟩
      have hmac : p.1 = mac := congrArg Prod.fst heq
      have hrec : r = preRecord mac p.2 (alookup mac postD) := by
        have := congrArg Prod.snd heq
        simp only at this
        rw [← this, hmac]
      have hinpre : mac ∈ preD.map Prod.fst := by
        rw [← hmac]
        exact List.mem_map_of_mem Prod.fst hp
      rw [if_pos hinpre, hrec]
      cases hpost2 : alookup mac postD with
      | none =>
        have : ¬ mac ∈ postD.map Prod.fst := (alookup_eq_none_iff mac postD).1 hpost2
        rw [if_neg this]
        rfl
      | some e =>
        have : mac ∈ postD.map Prod.fst := alookup_eq_some_mem mac e postD hpost2
        rw [if_pos this]
        rfl
    · rcases List.mem_map.1 hmem with ⟨p, hp, heq⟩
      rcases List.mem_filter.1 hp with ⟨_, hdec⟩
      have hmac : p.1 = mac := congrArg Prod.fst heq
      have hrec : r = newMacRecord mac p.2 := by
        have := congrArg Prod.snd heq
        simp only at this
        rw [← this, hmac]
      have hnone : alookup p.1 preD = none := by
        cases hl : alookup p.1 preD with
        | none => rfl
        | some v => rw [hl] at hdec; cases hdec
      have : ¬ mac ∈ preD.map Prod.fst := by
        rw [← hmac]
        exact (alookup_eq_none_iff p.1 preD).1 hnone
      rw [if_neg this, hrec]
      rfl

/-- C3: for a MAC present in both snapshots, each of speed, duplex, vlan, IP
and hostname carries the Post value styled `ftNormal` exactly when Pre and
Post agree and `ftBad` otherwise, while the Post switch and interface cells
always carry the Post value styled `ftNormal` with no equality check. -/
theorem C3_attribute_matching (preD postD : List (String × Endpoint)) (mac : String)
    (epre epost : Endpoint) (h1 : alookup mac preD = some epre)
    (h2 : alookup mac postD = some epost) :
    ∃ r, alookup mac (compare_snapshots preD postD) = some r ∧
      r.postSpeed = ⟨Val.l epost.speeds,
        if epre.speeds = epost.speeds then ftNormal else ftBad⟩ ∧
      r.postDuplex = ⟨Val.l epost.duplexes,
        if epre.duplexes = epost.duplexes then ftNormal else ftBad⟩ ∧
      r.postVlan = ⟨Val.s epost.vlan,
        if epre.vlan = epost.vlan then ftNormal else ftBad⟩ ∧
      r.postIP = ⟨Val.s epost.ipAddress,
        if epre.ipAddress = epost.ipAddress then ftNormal else ftBad⟩ ∧
      r.postHostname = ⟨Val.s epost.hostname,
        if epre.hostname = epost.hostname then ftNormal else ftBad⟩ ∧
      r.postDevice = ⟨Val.l epost.switches, ftNormal⟩ ∧
      r.postInterface = ⟨Val.l epost.interfaces, ftNormal⟩ := by
  refine ⟨preRecord mac epre (some epost), ?_, ?_, ?_, ?_, ?_, ?_, rfl, rfl⟩
  · rw [compare_snapshots]
    have hmapped := alookup_map_preRecord postD mac epre preD h1
    rw [h2] at hmapped
    exact alookup_append_left mac _ _ _ hmapped
  · by_cases hs : epre.speeds = epost.speeds <;> simp [preRecord, match_attribute, hs]
  · by_cases hs : epre.duplexes = epost.duplexes <;> simp [preRecord, match_attribute, hs]
  · by_cases hs : epre.vlan = epost.vlan <;> simp [preRecord, match_attribute, hs]
  · by_cases hs : epre.ipAddress = epost.ipAddress <;> simp [preRecord, match_attribute, hs]
  · by_cases hs : epre.hostname = epost.hostname <;> simp [preRecord, match_attribute, hs]

/-! ### Sample snapshots for the comparison witnesses -/

def sampleEpB : Endpoint :=
  { macAddress := "bb:bb", vendor := "v2", hostname := "h2", ipAddress := "10.0.0.2",
    vlan := "20", switches := ["SW1"], interfaces := ["Gi1/0/2"], speeds := ["1G"],
    duplexes := ["full"] }

def sampleEpA2 : Endpoint :=
  { macAddress := "aa:aa", vendor := "v1", hostname := "h1", ipAddress := "10.0.0.1",
    vlan := "10", switches := ["SW2"], interfaces := ["Te1/1"], speeds := ["10G"],
    duplexes := ["full", "half"] }

def sampleEpC : Endpoint :=
  { macAddress := "cc:cc", vendor := "v3", hostname := "h3", ipAddress := "10.0.0.3",
    vlan := "30", switches := ["SW3"], interfaces := ["Fa0/1"], speeds := ["100M"],
    duplexes := ["half"] }

def samplePreSnap : List (String × Endpoint) :=
  [("aa:aa", sampleRecord), ("bb:bb", sampleEpB)]

def samplePostSnap : List (String × Endpoint) :=
  [("aa:aa", sampleEpA2), ("cc:cc", sampleEpC)]

theorem C2_witness :
    ((compare_snapshots samplePreSnap samplePostSnap).map Prod.fst =
      samplePreSnap.map Prod.fst ++
        (samplePostSnap.map Prod.fst).filter
          (fun m => decide (¬ m ∈ samplePreSnap.map Prod.fst))) ∧
    ((compare_snapshots samplePreSnap samplePostSnap).map Prod.fst).Nodup ∧
    (∀ mac r, (mac, r) ∈ compare_snapshots samplePreSnap samplePostSnap →
      r.observation.value =
        Val.s (if mac ∈ samplePreSnap.map Prod.fst then
                (if mac ∈ samplePostSnap.map Prod.fst then "MAC Learnt" else "MAC Not Learnt")
              else "New MAC")) :=
  C2_classification_and_order samplePreSnap samplePostSnap (by decide) (by decide)

theorem C3_witness :
    ∃ r, alookup "aa:aa" (compare_snapshots samplePreSnap samplePostSnap) = some r ∧
      r.postSpeed = ⟨Val.l sampleEpA2.speeds,
        if sampleRecord.speeds = sampleEpA2.speeds then ftNormal else ftBad⟩ ∧
      r.postDuplex = ⟨Val.l sampleEpA2.duplexes,
        if sampleRecord.duplexes = sampleEpA2.duplexes then ftNormal else ftBad⟩ ∧
      r.postVlan = ⟨Val.s sampleEpA2.vlan,
        if sampleRecord.vlan = sampleEpA2.vlan then ftNormal else ftBad⟩ ∧
      r.postIP = ⟨Val.s sampleEpA2.ipAddress,
        if sampleRecord.ipAddress = sampleEpA2.ipAddress then ftNormal else ftBad⟩ ∧
      r.postHostname = ⟨Val.s sampleEpA2.hostname,
        if sampleRecord.hostname = sampleEpA2.hostname then ftNormal else ftBad⟩ ∧
      r.postDevice = ⟨Val.l sampleEpA2.switches, ftNormal⟩ ∧
      r.postInterface = ⟨Val.l sampleEpA2.interfaces, ftNormal⟩ :=
  C3_attribute_matching samplePreSnap samplePostSnap "aa:aa" sampleRecord sampleEpA2
    (by decide) (by decide)

/-! ## Vendor-registry refresh decision (`CreateEvent.load_mac_vendor`, workers.py 204-223) -/

/-- The staleness decision the source actually takes (workers.py 208-211): the
registry is fetched, parsed and persisted exactly when the cache file
`macvendor_registry.json` is absent or the age in days of the source module
itself (`os.path.getmtime(__file__)`) exceeds 90.  The cache artifact's own
age is never consulted. -/
def load_mac_vendor_fetches (cacheExists : Bool) (moduleAgeDays : Int) : Bool :=
  !cacheExists || decide (moduleAgeDays > 90)

/-- Modelled from the spec: the refresh policy as specified — fetch exactly
when the cache artifact is absent or the cache artifact's own age exceeds the
90-day threshold. -/
def spec_registry_refreshes (cacheExists : Bool) (cacheAgeDays : Int) : Bool :=
  !cacheExists || decide (cacheAgeDays > 90)

/-- C4 (refuted by the code): with the cache artifact present and 100 days old
while the source module was modified today (age 0 days), the code skips the
refresh and reuses the stale cache although the claimed policy — keying
staleness off the cache artifact's own age — requires a refresh; the two
decision procedures disagree at this input. -/
theorem C4_staleness_keyed_to_module_not_cache :
    load_mac_vendor_fetches true 0 = false ∧ spec_registry_refreshes true 100 = true := by
  decide

/-! ## Snapshot-directory scan (`Form.scan_snapshots`, ui.py 269-288) -/

/-- What the regex metacharacter `.` matches with default flags: any character
except a newline. -/
def dotChar (c : Char) : Bool := c != '\n'

/-- Literal-prefix match: consume the first argument off the head of the
second, returning the remainder. -/
def litP : List Char → List Char → Option (List Char)
  | [], s => some s
  | _ :: _, [] => none
  | c :: cs, d :: s => if c = d then litP cs s else none

/-- Every split of a list into prefix and suffix, longest prefix first — the
order a greedy `(.*)` explores candidate matches under backtracking. -/
def splitsDesc (cs : List Char) : List (List Char × List Char) :=
  ((List.range (cs.length + 1)).reverse).map (fun n => (cs.take n, cs.drop n))

/-- Match of the pattern tail `\].json` at the head of the input (trailing
characters are allowed — `re.search` does not anchor the end). -/
def tail3 (s : List Char) : Bool :=
  match s with
  | ']' :: c :: rest => dotChar c && (litP ['j', 's', 'o', 'n'] rest).isSome
  | _ => false

/-- Greedy match of `(.*)\].json` — the third capture group and the pattern
tail. -/
def findG3 (s : List Char) : Option (List Char) :=
  (splitsDesc s).findSome? (fun g => if g.1.all dotChar && tail3 g.2 then some g.1 else none)

/-- Greedy match of `(.*)\]_\[(.*)\].json` — the second and third capture
groups. -/
def findG23 (s : List Char) : Option (List Char × List Char) :=
  (splitsDesc s).findSome? (fun g =>
    if g.1.all dotChar then
      match litP [']', '_', '['] g.2 with
      | some rest => (findG3 rest).map (fun g3 => (g.1, g3))
      | none => none
    else none)

/-- Greedy match of `(.*)\]_\[(.*)\]_\[(.*)\].json` — all three capture
groups. -/
def findG123 (s : List Char) : Option (List Char × List Char × List Char) :=
  (splitsDesc s).findSome? (fun g =>
    if g.1.all dotChar then
      match litP [']', '_', '['] g.2 with
      | some rest => (findG23 rest).map (fun q => (g.1, q.1, q.2))
      | none => none
    else none)

/-- `re.search(r'\[(.*)\]_\[(.*)\]_\[(.*)\].json', file)` (ui.py 279):
leftmost starting position, then greedy groups with backtracking. -/
def searchPat : List Char → Option (List Char × List Char × List Char)
  | [] => none
  | c :: s =>
    if c = '[' then
      match findG123 s with
      | some r => some r
      | none => searchPat s
    else searchPat s

/-- The identity of a snapshot recovered from a filename (ui.py 281-285):
group 1 is the type, group 2 the name, group 3 the timestamp. -/
structure SnapshotId where
  timestamp : String
  type : String
  name : String
deriving DecidableEq

/-- One iteration of the scan loop (ui.py 278-288): a filename the pattern
does not match yields `none` (the `if match:` guard skips it, and the
enclosing `try`/`except` absorbs and logs anything raised). -/
def parse_snapshot_file (file : String) : Option SnapshotId :=
  (searchPat file.toList).map (fun g =>
    { timestamp := String.mk g.2.2, type := String.mk g.1, name := String.mk g.2.1 })

/-- `Form.scan_snapshots` (ui.py 269-288) over a directory listing: every file
whose name parses contributes one table entry, every other file is skipped. -/
def scan_snapshots (files : List String) : List SnapshotId :=
  files.filterMap parse_snapshot_file

/-- C8: a file whose name does not match the snapshot pattern never raises out
of the scan — it is skipped and the scan continues over the remaining files —
and every well-formed snapshot filename contributes its entry. -/
theorem C8_scan_skips_malformed :
    (∀ pre f post, parse_snapshot_file f = none →
      scan_snapshots (pre ++ f :: post) = scan_snapshots (pre ++ post)) ∧
    (∀ files f sid, f ∈ files → parse_snapshot_file f = some sid →
      sid ∈ scan_snapshots files) := by
  constructor
  · intro pre f post h
    simp [scan_snapshots, List.filterMap_append, List.filterMap_cons, h]
  · intro files f sid hf hp
    exact List.mem_filterMap.2 ⟨f, hf, hp⟩

theorem C8_witness :
    (scan_snapshots ([] ++ "junk.txt" :: ["[Pre]_[core]_[2024-01-01_10.00].json"]) =
      scan_snapshots ([] ++ ["[Pre]_[core]_[2024-01-01_10.00].json"])) ∧
    (SnapshotId.mk "2024-01-01_10.00" "Pre" "core" ∈
      scan_snapshots ["[Pre]_[core]_[2024-01-01_10.00].json"]) :=
  ⟨C8_scan_skips_malformed.1 [] "junk.txt" ["[Pre]_[core]_[2024-01-01_10.00].json"]
      (by decide),
   C8_scan_skips_malformed.2 ["[Pre]_[core]_[2024-01-01_10.00].json"]
      "[Pre]_[core]_[2024-01-01_10.00].json"
      (SnapshotId.mk "2024-01-01_10.00" "Pre" "core") (by decide) (by decide)⟩

end MacCompare
